import Mathlib

/-
Shallow embedding of bionic's code-reference extraction engine
(src/bionic/code_references.py): the `CodeContext` builder
`get_code_context` and the bytecode reference walker
`get_referenced_objects`, together with proofs about the per-instruction
rules, the error wrapping, and the effect of a walk on the context.
-/

namespace Bionic

/-- A Python value as seen by the walker: a number, a string (used both
for real strings and for unresolved dotted-name chains held on `tos`),
or a resolved object carrying a tag and a finite attribute table
(modelling modules, functions, classes and instances, whose attributes
`getattr` resolves). -/
inductive Value where
  | vnum : Int → Value
  | vstr : String → Value
  | vobj : String → List (String × Value) → Value

/-- Python truthiness of a value: `0` and `""` are falsy; the objects we
model (modules, functions, class instances without `__bool__`/`__len__`)
are truthy. -/
def truthy : Value → Bool
  | .vnum n => n != 0
  | .vstr s => s != ""
  | .vobj _ _ => true

/-- `isinstance(v, str)` for our value model. -/
def isStr : Value → Bool
  | .vstr _ => true
  | _ => false

/-- Dictionary lookup (`d[k]` / `k in d`) on an association list. -/
def alookup : List (String × Value) → String → Option Value
  | [], _ => none
  | (k, v) :: rest, n => if k = n then some v else alookup rest n

/-- Dictionary assignment `d[k] = v`: replace in place if the key is
present, else append (Python dict insertion order). -/
def ainsert : List (String × Value) → String → Value → List (String × Value)
  | [], n, v => [(n, v)]
  | (k, w) :: rest, n, v =>
    if k = n then (k, v) :: rest else (k, w) :: ainsert rest n v

/-- Dictionary deletion `del d[k]` (the key's presence is checked by the
caller; on an absent key Python raises `KeyError`). -/
def aerase : List (String × Value) → String → List (String × Value)
  | [], _ => []
  | (k, w) :: rest, n => if k = n then rest else (k, w) :: aerase rest n

/-- `getattr(v, name)`: resolve an attribute on a resolved object via its
attribute table; `none` models `AttributeError`. -/
def getattr : Value → String → Option Value
  | .vobj _ attrs, n => alookup attrs n
  | _, _ => none

/-- The opcodes `get_referenced_objects` dispatches on; every other
opcode falls to the default-flush rule and is modelled by `other`. -/
inductive Op where
  | LOAD_GLOBAL (argval : String)
  | LOAD_NAME (argval : String)
  | LOAD_DEREF (argval : String)
  | LOAD_CLOSURE (argval : String)
  | IMPORT_NAME (argval : String)
  | LOAD_METHOD (argval : String)
  | LOAD_ATTR (argval : String)
  | IMPORT_FROM (argval : String)
  | DELETE_FAST (argval : String)
  | STORE_FAST (argval : String)
  | LOAD_FAST (argval : String)
  | other (opname : String)

/-- One decoded instruction: the operation (with resolved argument) and
its optional `starts_line`. -/
structure Instr where
  op : Op
  startsLine : Option Nat

/-- The parts of a Python code object that `get_referenced_objects`
reads: `co_filename`, `co_name`, and the decoded instruction stream. -/
structure CodeObj where
  co_filename : String
  co_name : String
  instructions : List Instr

/-- `CodeContext`: the three mappings built by `get_code_context`. -/
structure CodeContext where
  globals : List (String × Value)
  cells : List (String × Value)
  varnames : List (String × Value)

/-- Primitive Python exceptions the embedded code can raise. -/
inductive PyExc where
  | assertionError
  | keyError (k : String)
  | attributeError (a : String)
  | importExecError (m : String)

/-- An error escaping an entry point: either a bare exception (such as the
`assert` in `get_code_context`) or the domain `CodeVersioningError` raised
by the walker's per-instruction handler, carrying the source file name, the
best-known line number, the traced code object's name, and the original
exception chained as cause. -/
inductive PyErr where
  | exc (e : PyExc)
  | codeVersioningError (filename : String) (lineno : Option Nat)
      (codeName : String) (cause : PyExc)

/-- Outcome of `importlib.import_module(name)`: the module object, an
`ImportError` (module not found), or a non-`ImportError` exception raised
while executing the module. -/
inductive ImportResult where
  | found (m : Value)
  | importError
  | execError

/-- The walker's mutable state: the single-slot top of stack `tos`, the
last known line number, the accumulated `refs`, and the context (whose
`varnames` the walker mutates in place). -/
structure WalkState where
  tos : Option Value
  lineno : Option Nat
  refs : List Value
  ctx : CodeContext

/-- `set_tos(t)`: if `tos` currently holds a value, append it to `refs`,
then set `tos = t`. -/
def set_tos (st : WalkState) (t : Value) : WalkState :=
  match st.tos with
  | some v => { st with refs := st.refs ++ [v], tos := some t }
  | none => { st with tos := some t }

/-- The `else` branch of the dispatch: for any instruction no earlier
branch claims, append a non-`None` `tos` to `refs` and clear it. -/
def defaultFlush (st : WalkState) : WalkState :=
  match st.tos with
  | some v => { st with refs := st.refs ++ [v], tos := none }
  | none => st

/-- One instruction dispatch of `get_referenced_objects`, translated
branch by branch from the `elif` chain; `imp` is the ambient
`importlib.import_module`. An `error` result models an exception escaping
the branch (to be wrapped by the surrounding handler). Note that the
`DELETE_FAST`/`STORE_FAST` branches require a truthy `tos` (`and tos`)
and that a `LOAD_FAST` whose name is not in `varnames` falls through to
the default flush. -/
def stepOp (imp : String → ImportResult) (op : Op) (st : WalkState) :
    Except PyExc WalkState :=
  match op with
  | .LOAD_GLOBAL n | .LOAD_NAME n =>
    match alookup st.ctx.globals n with
    | some v => .ok (set_tos st v)
    | none => .ok (set_tos st (.vstr n))
  | .LOAD_DEREF n | .LOAD_CLOSURE n =>
    match alookup st.ctx.cells n with
    | some v => .ok (set_tos st v)
    | none => .error (.keyError n)
  | .IMPORT_NAME n =>
    match imp n with
    | .found m => .ok (set_tos st m)
    | .importError => .ok (set_tos st (.vstr n))
    | .execError => .error (.importExecError n)
  | .LOAD_METHOD n | .LOAD_ATTR n | .IMPORT_FROM n =>
    match st.tos with
    | none => .ok { st with refs := st.refs ++ [.vstr n] }
    | some (.vstr s) => .ok { st with tos := some (.vstr (s ++ "." ++ n)) }
    | some v =>
      match getattr v n with
      | some w => .ok { st with tos := some w }
      | none => .error (.attributeError n)
  | .DELETE_FAST n =>
    match st.tos with
    | some v =>
      if truthy v then
        match alookup st.ctx.varnames n with
        | some _ =>
          .ok { st with ctx := { st.ctx with varnames := aerase st.ctx.varnames n },
                        tos := none }
        | none => .error (.keyError n)
      else .ok (defaultFlush st)
    | none => .ok (defaultFlush st)
  | .STORE_FAST n =>
    match st.tos with
    | some v =>
      if truthy v then
        .ok { st with ctx := { st.ctx with varnames := ainsert st.ctx.varnames n v },
                      tos := none }
      else .ok (defaultFlush st)
    | none => .ok (defaultFlush st)
  | .LOAD_FAST n =>
    match alookup st.ctx.varnames n with
    | some v => .ok (set_tos st v)
    | none => .ok (defaultFlush st)
  | .other _ => .ok (defaultFlush st)

/-- `if op.starts_line is not None: lineno = op.starts_line`. -/
def updLineno (old : Option Nat) : Option Nat → Option Nat
  | some l => some l
  | none => old

/-- The walker's loop over the instruction stream: update `lineno`,
dispatch the instruction, and wrap any exception into a
`CodeVersioningError` carrying file, line and code-object name, with the
original exception as cause. Returns the final walker state (the final
state's `ctx` is the in-place-mutated context). -/
def runWalker (imp : String → ImportResult) (fn cn : String) :
    List Instr → WalkState → Except PyErr WalkState
  | [], st => .ok st
  | i :: rest, st =>
    let st1 : WalkState := { st with lineno := updLineno st.lineno i.startsLine }
    match stepOp imp i.op st1 with
    | .ok st2 => runWalker imp fn cn rest st2
    | .error e => .error (.codeVersioningError fn st1.lineno cn e)

/-- Initial walker state: `tos = None`, `lineno = None`, `refs = []`. -/
def initState (ctx : CodeContext) : WalkState :=
  { tos := none, lineno := none, refs := [], ctx := ctx }

/-- `get_referenced_objects(code, context)`: run the walker over the
code object's instructions and return the accumulated `refs` (with no
flush of a trailing `tos`). -/
def get_referenced_objects (imp : String → ImportResult) (code : CodeObj)
    (ctx : CodeContext) : Except PyErr (List Value) :=
  (runWalker imp code.co_filename code.co_name code.instructions
    (initState ctx)).map (fun st => st.refs)

/-- The parts of a Python function object that `get_code_context` reads:
cell-variable names, free-variable names, the captured closure cells'
contents, whether the function is a bound method, and its `__self__` and
`__globals__`. -/
structure PyFunc where
  co_cellvars : List String
  co_freevars : List String
  closure : List Value
  isMethod : Bool
  selfVal : Value
  globals : List (String × Value)

/-- `get_code_context(func)`: seed `cells` with each cell variable mapped
to its own name; when there are free variables, `assert` that their count
equals the captured-cell count (a bare `AssertionError` on mismatch) and
map each free variable to its captured contents; seed `varnames` with
`self` for bound methods. -/
def get_code_context (f : PyFunc) : Except PyErr CodeContext :=
  let cells0 := f.co_cellvars.foldl (fun m v => ainsert m v (Value.vstr v)) []
  let varnames0 : List (String × Value) :=
    if f.isMethod then [("self", f.selfVal)] else []
  if f.co_freevars = [] then
    .ok { globals := f.globals, cells := cells0, varnames := varnames0 }
  else if f.co_freevars.length = f.closure.length then
    .ok { globals := f.globals,
          cells := (f.co_freevars.zip f.closure).foldl
            (fun m p => ainsert m p.1 p.2) cells0,
          varnames := varnames0 }
  else .error (.exc .assertionError)

/-- Does a result carry the domain `CodeVersioningError` kind? -/
def isCodeVersioningErr {α : Type} : Except PyErr α → Bool
  | .error (.codeVersioningError _ _ _ _) => true
  | _ => false

/-- The attribute name of an attribute-chain instruction
(`LOAD_ATTR`, `LOAD_METHOD`, `IMPORT_FROM`), if it is one. -/
def attrName : Op → Option String
  | .LOAD_ATTR n | .LOAD_METHOD n | .IMPORT_FROM n => some n
  | _ => none

/-! Concrete fixtures used by witnesses and counterexamples. -/

/-- An import environment in which no module is importable. -/
def imp0 : String → ImportResult := fun _ => ImportResult.importError

/-- An empty context. -/
def ctx0 : CodeContext := { globals := [], cells := [], varnames := [] }

/-- A walker state holding the truthy value `7` on `tos` over the empty
context. -/
def stTruthy : WalkState :=
  { tos := some (Value.vnum 7), lineno := none, refs := [], ctx := ctx0 }

/-- A walker state holding the falsy value `0` on `tos` over the empty
context. -/
def stFalsy : WalkState :=
  { tos := some (Value.vnum 0), lineno := none, refs := [], ctx := ctx0 }

/-- A walker state with an empty `tos` over the empty context. -/
def stEmptyTos : WalkState :=
  { tos := none, lineno := none, refs := [], ctx := ctx0 }

/-- A walker state whose `tos` holds a resolved object with an attribute
`b` bound to `5`. -/
def stObjTos : WalkState :=
  { tos := some (Value.vobj "mod" [("b", Value.vnum 5)]), lineno := none,
    refs := [], ctx := ctx0 }

/-! Claim theorems. -/

/-- Claim C2: for every attribute-chain instruction (load-attribute,
load-method, import-from) with attribute name `n`, the step satisfies
exactly three cases on the current `tos`: empty `tos` appends `n` to
`refs` and leaves `tos` empty; a string `tos = s` becomes `s ++ "." ++ n`
with `refs` untouched; a resolved (non-string) object becomes
`getattr` of it with `refs` untouched. -/
theorem C2_attr_chain_cases (imp : String → ImportResult) (op : Op) (n : String)
    (st : WalkState) (hop : attrName op = some n) :
    (st.tos = none →
      stepOp imp op st = .ok { st with refs := st.refs ++ [Value.vstr n] }) ∧
    (∀ s, st.tos = some (Value.vstr s) →
      stepOp imp op st = .ok { st with tos := some (Value.vstr (s ++ "." ++ n)) }) ∧
    (∀ v w, st.tos = some v → isStr v = false → getattr v n = some w →
      stepOp imp op st = .ok { st with tos := some w }) := by
  obtain ⟨tos, ln, refs, ctx⟩ := st
  cases op <;> simp only [attrName, Option.some.injEq, reduceCtorEq] at hop <;>
    subst hop <;>
    refine ⟨fun h => ?_, fun s h => ?_, fun v w h hs hg => ?_⟩ <;>
    simp only at h <;> subst h <;>
    first
      | rfl
      | (cases v <;> simp only [isStr, reduceCtorEq] at hs <;>
          simp only [stepOp, hg])

/-- Witness for C2 at concrete inputs: one instance of each of the three
cases, for a `LOAD_ATTR "b"` instruction. -/
theorem C2_attr_chain_cases_witness :
    stepOp imp0 (Op.LOAD_ATTR "b") stEmptyTos =
      .ok { stEmptyTos with refs := [Value.vstr "b"] } ∧
    stepOp imp0 (Op.LOAD_ATTR "b")
        { stEmptyTos with tos := some (Value.vstr "a") } =
      .ok { stEmptyTos with tos := some (Value.vstr "a.b") } ∧
    stepOp imp0 (Op.LOAD_ATTR "b") stObjTos =
      .ok { stObjTos with tos := some (Value.vnum 5) } := by
  refine ⟨?_, ?_, ?_⟩
  · exact (C2_attr_chain_cases imp0 (Op.LOAD_ATTR "b") "b" stEmptyTos rfl).1 rfl
  · exact (C2_attr_chain_cases imp0 (Op.LOAD_ATTR "b") "b"
      { stEmptyTos with tos := some (Value.vstr "a") } rfl).2.1 "a" rfl
  · exact (C2_attr_chain_cases imp0 (Op.LOAD_ATTR "b") "b" stObjTos rfl).2.2
      (Value.vobj "mod" [("b", Value.vnum 5)]) (Value.vnum 5) rfl rfl rfl

/-- Claim C8: for every import-module-by-name instruction, the walker
attempts a dynamic import: on success it commits the module object; on
`ImportError` it commits the dotted name as a string, and that fallback
returns normally (no error escapes). -/
theorem C8_import_name_rule (imp : String → ImportResult) (n : String)
    (st : WalkState) :
    (∀ m, imp n = .found m → stepOp imp (Op.IMPORT_NAME n) st = .ok (set_tos st m)) ∧
    (imp n = .importError →
      stepOp imp (Op.IMPORT_NAME n) st = .ok (set_tos st (Value.vstr n))) := by
  constructor
  · intro m hm
    simp only [stepOp, hm]
  · intro hm
    simp only [stepOp, hm]

/-- Witness for C8 at concrete inputs: an importable module is committed
as an object, and an unimportable name is committed as a string. -/
theorem C8_import_name_rule_witness :
    stepOp (fun s => if s = "os" then ImportResult.found (Value.vobj "os" [])
        else ImportResult.importError)
      (Op.IMPORT_NAME "os") stEmptyTos =
      .ok { stEmptyTos with tos := some (Value.vobj "os" []) } ∧
    stepOp imp0 (Op.IMPORT_NAME "missing") stEmptyTos =
      .ok { stEmptyTos with tos := some (Value.vstr "missing") } := by
  constructor
  · exact (C8_import_name_rule
      (fun s => if s = "os" then ImportResult.found (Value.vobj "os" [])
        else ImportResult.importError) "os" stEmptyTos).1
      (Value.vobj "os" []) rfl
  · exact (C8_import_name_rule imp0 "missing" stEmptyTos).2 rfl

/-- A context whose `varnames` binds `y` to `3`. -/
def ctxY : CodeContext :=
  { globals := [], cells := [], varnames := [("y", Value.vnum 3)] }

/-- A walker state with empty `tos` over `ctxY`. -/
def stY : WalkState :=
  { tos := none, lineno := none, refs := [], ctx := ctxY }

/-- Counterexample to claim C1: a load-local-variable instruction whose
name is absent from `varnames` is not a no-op when `tos` is non-empty;
it triggers the default flush, appending `tos` to `refs` and clearing
`tos`. Here `tos = 7` and `"x"` is unbound: `refs` changes from `[]` to
`[7]`. -/
theorem C1_counterexample :
    stepOp imp0 (Op.LOAD_FAST "x") stTruthy =
      .ok { stTruthy with tos := none, refs := [Value.vnum 7] } ∧
    alookup stTruthy.ctx.varnames "x" = none ∧
    stTruthy.refs = [] ∧
    ([Value.vnum 7] : List Value) ≠ [] := by
  refine ⟨rfl, rfl, rfl, ?_⟩
  simp

/-- Claim C1 as amended: when the name is present in `varnames` the
walker performs `commit(varnames[name])`; when the name is absent the
instruction falls through to the default flush rule, so it is a no-op
only when `tos` is also empty, and otherwise appends `tos` to `refs` and
clears `tos` (leaving `varnames` and the rest of the context
unchanged). -/
theorem C1_load_fast_rule (imp : String → ImportResult) (n : String)
    (st : WalkState) :
    (∀ w, alookup st.ctx.varnames n = some w →
      stepOp imp (Op.LOAD_FAST n) st = .ok (set_tos st w)) ∧
    (alookup st.ctx.varnames n = none → st.tos = none →
      stepOp imp (Op.LOAD_FAST n) st = .ok st) ∧
    (∀ v, alookup st.ctx.varnames n = none → st.tos = some v →
      stepOp imp (Op.LOAD_FAST n) st =
        .ok { st with tos := none, refs := st.refs ++ [v] }) := by
  refine ⟨fun w hw => ?_, fun hn ht => ?_, fun v hn ht => ?_⟩
  · simp only [stepOp, hw]
  · simp only [stepOp, hn, defaultFlush, ht]
  · simp only [stepOp, hn, defaultFlush, ht]

/-- Witness for C1 (amended) at concrete inputs: a bound name `y` is
committed; an unbound name `x` is a no-op on empty `tos` and flushes a
non-empty `tos`. -/
theorem C1_load_fast_rule_witness :
    stepOp imp0 (Op.LOAD_FAST "y") stY = .ok (set_tos stY (Value.vnum 3)) ∧
    stepOp imp0 (Op.LOAD_FAST "x") stEmptyTos = .ok stEmptyTos ∧
    stepOp imp0 (Op.LOAD_FAST "x") stTruthy =
      .ok { stTruthy with tos := none, refs := [Value.vnum 7] } := by
  refine ⟨?_, ?_, ?_⟩
  · exact (C1_load_fast_rule imp0 "y" stY).1 (Value.vnum 3) rfl
  · exact (C1_load_fast_rule imp0 "x" stEmptyTos).2.1 rfl rfl
  · exact (C1_load_fast_rule imp0 "x" stTruthy).2.2 (Value.vnum 7) rfl rfl

/-- Counterexample to claim C4: a store-local-variable instruction
processed while `tos` is non-empty but falsy (here the integer `0`) does
not bind `varnames[n]` and does append to `refs`: the guard in the code
is Python truthiness (`and tos`), not non-emptiness, so the falsy value
falls to the default flush. -/
theorem C4_counterexample :
    stepOp imp0 (Op.STORE_FAST "y") stFalsy =
      .ok { stFalsy with tos := none, refs := [Value.vnum 0] } ∧
    alookup stFalsy.ctx.varnames "y" = none ∧
    stFalsy.tos = some (Value.vnum 0) ∧
    ([Value.vnum 0] : List Value) ≠ [] := by
  refine ⟨rfl, rfl, rfl, ?_⟩
  simp

/-- Claim C4 as amended: a store-local-variable instruction processed
while `tos` holds a truthy value binds `varnames[n]` to that value,
resets `tos` to empty and appends nothing to `refs`; when `tos` holds a
non-empty falsy value the default flush applies instead (the value is
appended to `refs`, `tos` is cleared, and nothing is bound). -/
theorem C4_store_fast_rule (imp : String → ImportResult) (n : String)
    (st : WalkState) :
    (∀ v, st.tos = some v → truthy v = true →
      stepOp imp (Op.STORE_FAST n) st =
        .ok { st with ctx := { st.ctx with varnames := ainsert st.ctx.varnames n v },
                      tos := none }) ∧
    (∀ v, st.tos = some v → truthy v = false →
      stepOp imp (Op.STORE_FAST n) st =
        .ok { st with tos := none, refs := st.refs ++ [v] }) := by
  refine ⟨fun v ht htr => ?_, fun v ht htr => ?_⟩
  · simp only [stepOp, ht, htr, if_true]
  · simp only [stepOp, ht, htr, if_false, Bool.false_eq_true, defaultFlush]

/-- Witness for C4 (amended) at concrete inputs: storing the truthy `7`
binds `y` and appends nothing; storing the falsy `0` flushes instead. -/
theorem C4_store_fast_rule_witness :
    stepOp imp0 (Op.STORE_FAST "y") stTruthy =
      .ok { stTruthy with
              ctx := { ctx0 with varnames := [("y", Value.vnum 7)] },
              tos := none } ∧
    stepOp imp0 (Op.STORE_FAST "y") stFalsy =
      .ok { stFalsy with tos := none, refs := [Value.vnum 0] } := by
  constructor
  · exact (C4_store_fast_rule imp0 "y" stTruthy).1 (Value.vnum 7) rfl rfl
  · exact (C4_store_fast_rule imp0 "y" stFalsy).2 (Value.vnum 0) rfl rfl

/-- A function object with one free variable but no captured cells: the
count mismatch that trips the `assert` in `get_code_context`. -/
def fMismatch : PyFunc :=
  { co_cellvars := [], co_freevars := ["x"], closure := [], isMethod := false,
    selfVal := Value.vnum 0, globals := [] }

/-- Counterexample to claim C5: on a free-variable/cell count mismatch,
`get_code_context` raises a bare `AssertionError` (from its `assert`
statement), not the domain code-versioning error kind. -/
theorem C5_counterexample :
    get_code_context fMismatch = .error (.exc .assertionError) ∧
    isCodeVersioningErr (get_code_context fMismatch) = false := by
  exact ⟨rfl, rfl⟩

/-- Claim C5 as amended: for every function object with a non-empty
free-variable list whose length differs from the captured-cell list's
length, `get_code_context` raises an `AssertionError` (a bare assertion
failure, not the domain code-versioning error kind); it never silently
truncates to the shorter list. -/
theorem C5_build_context_mismatch (f : PyFunc)
    (hne : f.co_freevars ≠ [])
    (hlen : f.co_freevars.length ≠ f.closure.length) :
    get_code_context f = .error (.exc .assertionError) := by
  simp only [get_code_context, if_neg hne, if_neg hlen]

/-- Witness for C5 (amended) at the concrete mismatched function. -/
theorem C5_build_context_mismatch_witness :
    get_code_context fMismatch = .error (.exc .assertionError) :=
  C5_build_context_mismatch fMismatch (by simp [fMismatch]) (by simp [fMismatch])

/-! Walk-level lemmas. -/

/-- Splitting a walk at a list append. -/
theorem runWalker_append (imp : String → ImportResult) (fn cn : String)
    (l1 l2 : List Instr) (st : WalkState) :
    runWalker imp fn cn (l1 ++ l2) st =
      match runWalker imp fn cn l1 st with
      | .ok st1 => runWalker imp fn cn l2 st1
      | .error e => .error e := by
  induction l1 generalizing st with
  | nil => simp [runWalker]
  | cons i rest ih =>
    simp only [List.cons_append, runWalker]
    cases hs : stepOp imp i.op { st with lineno := updLineno st.lineno i.startsLine } with
    | ok st2 => simp [ih]
    | error e => simp

/-- Claim C3: accessing a three-level attribute chain `a.b.c` whose base
name `a` is neither a local variable (so it compiles to a global load)
nor present in `context.globals` yields the single dotted string
`"a.b.c"` as one reference, not three separate fragments. -/
theorem C3_attr_chain_single_ref (imp : String → ImportResult) (fn cn : String)
    (a b c : String) (ctx : CodeContext) (hg : alookup ctx.globals a = none) :
    get_referenced_objects imp
      ⟨fn, cn, [⟨Op.LOAD_GLOBAL a, none⟩, ⟨Op.LOAD_ATTR b, none⟩,
        ⟨Op.LOAD_ATTR c, none⟩, ⟨Op.other "RETURN_VALUE", none⟩]⟩ ctx =
      .ok [Value.vstr (a ++ "." ++ b ++ "." ++ c)] := by
  simp [get_referenced_objects, runWalker, stepOp, hg, set_tos, defaultFlush,
    initState, updLineno, Except.map]

/-- Witness for C3 at concrete names over the empty context. -/
theorem C3_attr_chain_single_ref_witness :
    get_referenced_objects imp0
      ⟨"f.py", "g", [⟨Op.LOAD_GLOBAL "a", none⟩, ⟨Op.LOAD_ATTR "b", none⟩,
        ⟨Op.LOAD_ATTR "c", none⟩, ⟨Op.other "RETURN_VALUE", none⟩]⟩ ctx0 =
      .ok [Value.vstr ("a" ++ "." ++ "b" ++ "." ++ "c")] :=
  C3_attr_chain_single_ref imp0 "f.py" "g" "a" "b" "c" ctx0 rfl

/-- Claim C6: if processing one instruction raises an exception, the walk
returns (raises) the single domain error kind carrying the source file
name, the best-known line number and the traced code object's name, with
the original exception chained as cause; it does not return normally and
does not swallow the exception. -/
theorem C6_error_wrapped (imp : String → ImportResult) (fn cn : String)
    (pre : List Instr) (i : Instr) (post : List Instr) (ctx : CodeContext)
    (st : WalkState) (e : PyExc)
    (hpre : runWalker imp fn cn pre (initState ctx) = .ok st)
    (hstep : stepOp imp i.op
      { st with lineno := updLineno st.lineno i.startsLine } = .error e) :
    get_referenced_objects imp ⟨fn, cn, pre ++ i :: post⟩ ctx =
      .error (.codeVersioningError fn (updLineno st.lineno i.startsLine) cn e) := by
  unfold get_referenced_objects
  rw [runWalker_append]
  rw [hpre]
  simp only [runWalker, hstep, Except.map]

/-- Witness for C6: a load-closure-variable instruction whose name is
missing from `cells` (over the empty context) produces the wrapped
error, with the instruction's line number and a chained `KeyError`. -/
theorem C6_error_wrapped_witness :
    get_referenced_objects imp0
      ⟨"file.py", "fn", [⟨Op.LOAD_DEREF "z", some 5⟩]⟩ ctx0 =
      .error (.codeVersioningError "file.py" (some 5) "fn" (.keyError "z")) :=
  C6_error_wrapped imp0 "file.py" "fn" [] ⟨Op.LOAD_DEREF "z", some 5⟩ []
    ctx0 (initState ctx0) (.keyError "z") rfl rfl

/-- Claim C7: when the instruction stream ends, the walk returns `refs`
as accumulated without flushing a trailing non-empty `tos` (the trailing
value only reaches `refs` if a further consuming instruction follows). -/
theorem C7_no_trailing_flush (imp : String → ImportResult) (fn cn : String)
    (instrs : List Instr) (ctx : CodeContext) (st : WalkState)
    (h : runWalker imp fn cn instrs (initState ctx) = .ok st) :
    get_referenced_objects imp ⟨fn, cn, instrs⟩ ctx = .ok st.refs ∧
    ∀ s, get_referenced_objects imp ⟨fn, cn, instrs ++ [⟨Op.other s, none⟩]⟩ ctx =
      .ok (st.refs ++ (match st.tos with | some v => [v] | none => [])) := by
  constructor
  · unfold get_referenced_objects
    rw [h]
    rfl
  · intro s
    unfold get_referenced_objects
    rw [runWalker_append]
    rw [h]
    simp only [runWalker, stepOp, defaultFlush, updLineno]
    cases ht : st.tos <;> simp [ht, Except.map]

/-- Witness for C7: a walk ending with an unconsumed loaded name returns
`[]`, and the same walk with a trailing consuming instruction returns the
dropped value, showing the trailing `tos` was discarded. -/
theorem C7_no_trailing_flush_witness :
    get_referenced_objects imp0
      ⟨"f.py", "g", [⟨Op.LOAD_GLOBAL "g0", none⟩]⟩ ctx0 = .ok [] ∧
    get_referenced_objects imp0
      ⟨"f.py", "g", [⟨Op.LOAD_GLOBAL "g0", none⟩,
        ⟨Op.other "RETURN_VALUE", none⟩]⟩ ctx0 = .ok [Value.vstr "g0"] := by
  have h := C7_no_trailing_flush imp0 "f.py" "g" [⟨Op.LOAD_GLOBAL "g0", none⟩]
    ctx0 { tos := some (Value.vstr "g0"), lineno := none, refs := [], ctx := ctx0 }
    rfl
  exact ⟨h.1, h.2 "RETURN_VALUE"⟩

/-! Context-effect lemmas. -/

@[simp]
theorem set_tos_ctx (st : WalkState) (t : Value) : (set_tos st t).ctx = st.ctx := by
  unfold set_tos
  cases st.tos <;> rfl

@[simp]
theorem defaultFlush_ctx (st : WalkState) : (defaultFlush st).ctx = st.ctx := by
  unfold defaultFlush
  cases st.tos <;> rfl

/-- A single dispatch writes at most `varnames`: `globals` and `cells`
come out unchanged. -/
theorem stepOp_ctx_preserved (imp : String → ImportResult) (op : Op)
    (st st' : WalkState) (h : stepOp imp op st = .ok st') :
    st'.ctx.globals = st.ctx.globals ∧ st'.ctx.cells = st.ctx.cells := by
  cases op <;> simp only [stepOp] at h <;> (repeat' split at h) <;>
    simp only [Except.ok.injEq, reduceCtorEq] at h <;> subst h <;> simp

theorem alookup_ainsert (l : List (String × Value)) (m n : String) (v : Value) :
    alookup (ainsert l m v) n = if m = n then some v else alookup l n := by
  induction l with
  | nil => simp [ainsert, alookup]
  | cons kw rest ih =>
    obtain ⟨k, w⟩ := kw
    by_cases hkm : k = m
    · subst hkm
      by_cases hkn : k = n <;> simp [ainsert, alookup, hkn]
    · by_cases hkn : k = n
      · have hmn : ¬ m = n := fun hc => hkm (hkn.trans hc.symm)
        have hnm : ¬ n = m := fun hc => hmn hc.symm
        simp [ainsert, alookup, hkm, hkn, hmn, hnm]
      · simp [ainsert, alookup, hkm, hkn, ih]

theorem alookup_aerase_ne (l : List (String × Value)) (m n : String)
    (hne : ¬ n = m) : alookup (aerase l m) n = alookup l n := by
  induction l with
  | nil => rfl
  | cons kw rest ih =>
    obtain ⟨k, w⟩ := kw
    by_cases hkm : k = m
    · subst hkm
      have hkn : ¬ k = n := fun hc => hne hc.symm
      simp [aerase, alookup, hkn]
    · by_cases hkn : k = n <;> simp [aerase, alookup, hkm, hkn, hne, ih]

/-- A single dispatch that is not a delete of name `n` keeps `n` bound in
`varnames` if it was bound. -/
theorem stepOp_varname_mem (imp : String → ImportResult) (op : Op)
    (st st' : WalkState) (n : String) (hop : op ≠ Op.DELETE_FAST n)
    (hmem : (alookup st.ctx.varnames n).isSome = true)
    (h : stepOp imp op st = .ok st') :
    (alookup st'.ctx.varnames n).isSome = true := by
  cases op with
  | DELETE_FAST m =>
    have hmn : ¬ n = m := fun hc => hop (by rw [hc])
    simp only [stepOp] at h
    (repeat' split at h) <;>
      simp only [Except.ok.injEq, reduceCtorEq] at h <;> subst h <;>
      first
        | (rw [alookup_aerase_ne _ _ _ hmn]; exact hmem)
        | simp_all
  | STORE_FAST m =>
    simp only [stepOp] at h
    (repeat' split at h) <;>
      simp only [Except.ok.injEq, reduceCtorEq] at h <;> subst h <;>
      first
        | (rw [alookup_ainsert]
           by_cases hmn : m = n <;> simp [hmn, hmem])
        | simp_all
  | _ =>
    simp only [stepOp] at h
    (repeat' split at h) <;>
      simp only [Except.ok.injEq, reduceCtorEq] at h <;> subst h <;> simp_all

/-- Over a whole walk from state `st`, `globals` and `cells` are
unchanged. -/
theorem runWalker_ctx_preserved (imp : String → ImportResult) (fn cn : String)
    (instrs : List Instr) (st st' : WalkState)
    (h : runWalker imp fn cn instrs st = .ok st') :
    st'.ctx.globals = st.ctx.globals ∧ st'.ctx.cells = st.ctx.cells := by
  induction instrs generalizing st with
  | nil =>
    simp only [runWalker, Except.ok.injEq] at h
    subst h
    exact ⟨rfl, rfl⟩
  | cons i rest ih =>
    simp only [runWalker] at h
    cases hs : stepOp imp i.op { st with lineno := updLineno st.lineno i.startsLine } with
    | ok st2 =>
      rw [hs] at h
      have h1 := stepOp_ctx_preserved imp i.op _ st2 hs
      have h2 := ih st2 h
      exact ⟨h2.1.trans h1.1, h2.2.trans h1.2⟩
    | error e =>
      rw [hs] at h
      cases h

/-- Over a whole walk, a name bound in `varnames` and never the target of
a delete-local instruction stays bound. -/
theorem runWalker_varname_mem (imp : String → ImportResult) (fn cn : String)
    (instrs : List Instr) (st st' : WalkState) (n : String)
    (hnodel : ∀ i ∈ instrs, i.op ≠ Op.DELETE_FAST n)
    (hmem : (alookup st.ctx.varnames n).isSome = true)
    (h : runWalker imp fn cn instrs st = .ok st') :
    (alookup st'.ctx.varnames n).isSome = true := by
  induction instrs generalizing st with
  | nil =>
    simp only [runWalker, Except.ok.injEq] at h
    subst h
    exact hmem
  | cons i rest ih =>
    simp only [runWalker] at h
    cases hs : stepOp imp i.op { st with lineno := updLineno st.lineno i.startsLine } with
    | ok st2 =>
      rw [hs] at h
      have hm2 : (alookup st2.ctx.varnames n).isSome = true :=
        stepOp_varname_mem imp i.op
          { st with lineno := updLineno st.lineno i.startsLine } st2 n
          (hnodel i (List.mem_cons_self i rest)) hmem hs
      exact ih st2 (fun j hj => hnodel j (List.mem_cons_of_mem i hj)) hm2 h
    | error e =>
      rw [hs] at h
      cases h

/-- Claim C9: a walk never mutates `context.globals` and never mutates
`context.cells`; of the three context mappings only `varnames` is ever
written. -/
theorem C9_globals_cells_never_mutated (imp : String → ImportResult)
    (fn cn : String) (instrs : List Instr) (ctx : CodeContext) (st' : WalkState)
    (h : runWalker imp fn cn instrs (initState ctx) = .ok st') :
    st'.ctx.globals = ctx.globals ∧ st'.ctx.cells = ctx.cells :=
  runWalker_ctx_preserved imp fn cn instrs (initState ctx) st' h

/-- The context after a walk that stored `g0` under the local name `y`. -/
def ctxYG : CodeContext :=
  { globals := [], cells := [], varnames := [("y", Value.vstr "g0")] }

/-- The final walker state of that walk. -/
def stFinalYG : WalkState :=
  { tos := none, lineno := none, refs := [], ctx := ctxYG }

/-- Witness for C9: a walk that stores a new local binding (so `varnames`
does change) leaves `globals` and `cells` as they were. -/
theorem C9_globals_cells_never_mutated_witness :
    stFinalYG.ctx.globals = ctx0.globals ∧ stFinalYG.ctx.cells = ctx0.cells :=
  C9_globals_cells_never_mutated imp0 "f.py" "g"
    [⟨Op.LOAD_GLOBAL "g0", none⟩, ⟨Op.STORE_FAST "y", none⟩] ctx0 stFinalYG rfl

/-- Claim C10: a binding stored by a store-local instruction (with a
truthy `tos`, so the store actually binds) and not removed by any later
delete-local instruction on the same name is still present in the
context's `varnames` when the walk finishes; the walker performs no
restoration of `varnames`. -/
theorem C10_stored_binding_persists (imp : String → ImportResult)
    (fn cn : String) (pre post : List Instr) (sl : Option Nat) (n : String)
    (ctx : CodeContext) (st1 st' : WalkState) (v : Value)
    (hpre : runWalker imp fn cn pre (initState ctx) = .ok st1)
    (htos : st1.tos = some v) (htr : truthy v = true)
    (hnodel : ∀ i ∈ post, i.op ≠ Op.DELETE_FAST n)
    (hrun : runWalker imp fn cn (pre ++ ⟨Op.STORE_FAST n, sl⟩ :: post)
      (initState ctx) = .ok st') :
    (alookup st'.ctx.varnames n).isSome = true := by
  rw [runWalker_append, hpre] at hrun
  simp only [runWalker, stepOp, htos, htr, if_true] at hrun
  refine runWalker_varname_mem imp fn cn post _ st' n hnodel ?_ hrun
  simp [alookup_ainsert]

/-- The mid-walk state just before the store in the C10 witness walk. -/
def stMidG0 : WalkState :=
  { tos := some (Value.vstr "g0"), lineno := none, refs := [], ctx := ctx0 }

/-- Witness for C10: after a walk that stores `g0` under the local name
`y` and then returns, `y` is still bound in the final context. -/
theorem C10_stored_binding_persists_witness :
    (alookup stFinalYG.ctx.varnames "y").isSome = true :=
  C10_stored_binding_persists imp0 "f.py" "g" [⟨Op.LOAD_GLOBAL "g0", none⟩]
    [⟨Op.other "RETURN_VALUE", none⟩] none "y" ctx0 stMidG0 stFinalYG
    (Value.vstr "g0") rfl rfl rfl
    (by intro i hi; rw [List.mem_singleton] at hi; subst hi; simp) rfl

end Bionic
